import Mathlib

/-!
InterlockingTerrainTiles: the sample application `App`

A shallow embedding of `Applications/InterlockingTerrainTiles/App.cpp`:

* `App.CreateTerrainGeometry`: the vertex loop and the index loop of the terrain builder,
* `App.HandleEvent`: the keyboard dispatch,
* `App.Update`: the per-frame step, as a step on the application state that emits the
  calls made on the renderer,
* `App.ConfigureEngineComponents`: the device fallback policy.

Conventions.  `TERRAIN_X_LEN` and `TERRAIN_Z_LEN` are macro constants of `App.h`; the
builder takes them as the parameters `X` and `Z`.  The `int` expressions of the index loop
are evaluated in 32-bit two's complement (`int32`); the slots of the vertex loop stay below
the number of elements of the vertex elements and are natural numbers.  `float`
expressions are evaluated in `ℚ`.
Calls into the engine (renderer, window, timer, log) are recorded, in order, in a list of
`Call`s.
-/

namespace InterlockingTerrainTiles

/-! ## Terrain geometry: data -/

/-- The macro `clamp(value,minimum,maximum)` of App.cpp, line 20:
`(max(min((value),(maximum)),(minimum)))`. -/
def clamp (value minimum maximum : Int) : Int :=
  max (min value maximum) minimum

/-- A `Vector3f` value, with rational components. -/
structure Vector3f where
  x : ℚ
  y : ℚ
  z : ℚ
  deriving DecidableEq, Repr

/-- A `Vector2f` value, with rational components. -/
structure Vector2f where
  x : ℚ
  y : ℚ
  deriving DecidableEq, Repr

/-- Modelled from the spec: `VertexElementDX11( tuple, count )`, whose class is not part of
App.cpp.  It is a buffer of `count` elements; `Get3f( 0 )` / `Get2f( 0 )` give the
address of its first element, so the buffer is the list of its elements.  The elements are
zero before they are written. -/
def VertexElementDX11 {α : Type} (zero : α) (count : Nat) : List α :=
  List.replicate count zero

/-- The part of `GeometryDX11` that `CreateTerrainGeometry` fills: the two vertex elements
added with `AddElement` and the indices added with `AddIndex`, in the order of the calls. -/
structure GeometryDX11 where
  pPositions : List Vector3f
  pTexCoords : List Vector2f
  indices : List Int
  deriving DecidableEq, Repr

/-- The vertex data while the vertex loop runs: `pPosData` and `pTCData`. -/
structure VertexData where
  pPosData : List Vector3f
  pTCData : List Vector2f
  deriving DecidableEq, Repr

/-! ## Terrain geometry: the loops of `App::CreateTerrainGeometry` -/

/-- The body of the vertex loop, App.cpp lines 306-309, for loop counters `x` and `z`:
`fX = x / fWidth - 0.5f`, `fZ = z / fHeight - 0.5f`, then the two stores at
`x + z * (TERRAIN_X_LEN + 1)`. -/
def App.vertexBody (X Z : Nat) (x z : Nat) (d : VertexData) : VertexData :=
  let fWidth : ℚ := (X : ℚ)
  let fHeight : ℚ := (Z : ℚ)
  let fX : ℚ := (x : ℚ) / fWidth - 1 / 2
  let fZ : ℚ := (z : ℚ) / fHeight - 1 / 2
  { pPosData := d.pPosData.set (x + z * (X + 1)) ⟨fX, 0, fZ⟩
    pTCData := d.pTCData.set (x + z * (X + 1)) ⟨fX + 1 / 2, fZ + 1 / 2⟩ }

/-- The vertex loop, App.cpp lines 302-311: `x` runs over `0 .. TERRAIN_X_LEN`, and for each
`x`, `z` runs over `0 .. TERRAIN_Z_LEN`. -/
def App.vertexLoop (X Z : Nat) (d : VertexData) : VertexData :=
  (List.range (X + 1)).foldl
    (fun d x => (List.range (Z + 1)).foldl (fun d z => App.vertexBody X Z x z d) d) d

/-- The value of a C++ `int` result: 32-bit two's complement, so that a result outside
`-2^31 .. 2^31 - 1` wraps around. -/
def int32 (v : Int) : Int :=
  (v + 2147483648) % 4294967296 - 2147483648

/-- The `int` sum `a + b`. -/
def add32 (a b : Int) : Int := int32 (a + b)

/-- The `int` difference `a - b`. -/
def sub32 (a b : Int) : Int := int32 (a - b)

/-- The `int` product `a * b`. -/
def mul32 (a b : Int) : Int := int32 (a * b)

/-- The twelve arguments of `AddIndex` in one pass of the body of the index loop, App.cpp
lines 324-343, for loop counters `x` and `z`, in the order of the calls; every `+`, `-` and
`*` is the one of `int`. -/
def App.cellIndices (X Z : Nat) (x z : Nat) : List Int :=
  let TX : Int := (X : Int)
  let TZ : Int := (Z : Int)
  let x : Int := (x : Int)
  let z : Int := (z : Int)
  [ -- 0-3 are the actual quad vertices
    add32 (add32 z 0) (mul32 (add32 x 0) (add32 TX 1)),
    add32 (add32 z 1) (mul32 (add32 x 0) (add32 TX 1)),
    add32 (add32 z 0) (mul32 (add32 x 1) (add32 TX 1)),
    add32 (add32 z 1) (mul32 (add32 x 1) (add32 TX 1)),
    -- 4-5 are +x
    add32 (clamp (add32 z 0) 0 TZ) (mul32 (clamp (add32 x 2) 0 TX) (add32 TX 1)),
    add32 (clamp (add32 z 1) 0 TZ) (mul32 (clamp (add32 x 2) 0 TX) (add32 TX 1)),
    -- 6-7 are +z
    add32 (clamp (add32 z 2) 0 TZ) (mul32 (clamp (add32 x 0) 0 TX) (add32 TX 1)),
    add32 (clamp (add32 z 2) 0 TZ) (mul32 (clamp (add32 x 1) 0 TX) (add32 TX 1)),
    -- 8-9 are -x
    add32 (clamp (add32 z 0) 0 TZ) (mul32 (clamp (sub32 x 1) 0 TX) (add32 TX 1)),
    add32 (clamp (add32 z 1) 0 TZ) (mul32 (clamp (sub32 x 1) 0 TX) (add32 TX 1)),
    -- 10-11 are -z
    add32 (clamp (sub32 z 1) 0 TZ) (mul32 (clamp (add32 x 0) 0 TX) (add32 TX 1)),
    add32 (clamp (sub32 z 1) 0 TZ) (mul32 (clamp (add32 x 1) 0 TX) (add32 TX 1)) ]

/-- The index loop, App.cpp lines 317-345: `x` runs over `0 .. TERRAIN_X_LEN - 1`, and for
each `x`, `z` runs over `0 .. TERRAIN_Z_LEN - 1`; every `AddIndex` appends one index. -/
def App.indexLoop (X Z : Nat) (indices : List Int) : List Int :=
  (List.range X).foldl
    (fun acc x => (List.range Z).foldl (fun acc z => acc ++ App.cellIndices X Z x z) acc) indices

/-- The terrain builder `App::CreateTerrainGeometry`, App.cpp lines 269-353, with
`X = TERRAIN_X_LEN` and `Z = TERRAIN_Z_LEN`: two vertex elements of
`(TERRAIN_X_LEN + 1) * (TERRAIN_Z_LEN + 1)` elements each, filled by the vertex loop, and
the indices of the index loop, added to a fresh `GeometryDX11`. -/
def App.CreateTerrainGeometry (X Z : Nat) : GeometryDX11 :=
  let pPositions : List Vector3f := VertexElementDX11 ⟨0, 0, 0⟩ ((X + 1) * (Z + 1))
  let pTexCoords : List Vector2f := VertexElementDX11 ⟨0, 0⟩ ((X + 1) * (Z + 1))
  let d := App.vertexLoop X Z ⟨pPositions, pTexCoords⟩
  { pPositions := d.pPosData
    pTexCoords := d.pTCData
    indices := App.indexLoop X Z [] }

/-- The control points that the first four indices of the cell `(x, z)` address: for each
of the indices 0-3 that the index loop emits for the cell, the element of the positions of
`CreateTerrainGeometry` at that index, if there is one. -/
def App.quadCorners (X Z : Nat) (x z : Nat) : List (Option Vector3f) :=
  ((App.cellIndices X Z x z).take 4).map
    (fun i => if 0 ≤ i then (App.CreateTerrainGeometry X Z).pPositions[i.toNat]? else none)

/-! ## Events and application state -/

/-- The event types of `eEVENT` that App.cpp names or includes (`EvtKeyUp`, `EvtKeyDown`,
`EvtChar`, `EvtFrameStart`); `OTHER id` stands for the remaining values of the enumeration,
which is declared outside App.cpp. -/
inductive eEVENT where
  | SYSTEM_KEYBOARD_KEYUP
  | SYSTEM_KEYBOARD_KEYDOWN
  | SYSTEM_KEYBOARD_CHAR
  | RENDER_FRAME_START
  | OTHER (id : Nat)
  deriving DecidableEq, Repr

/-- An event as `HandleEvent` sees it: its type, and the character code that the keyboard
events carry (`unsigned int`; read only for key-up and key-down events). -/
structure IEvent where
  GetEventType : eEVENT
  GetCharacterCode : Nat
  deriving DecidableEq, Repr

/-- The virtual-key code `VK_ESCAPE` of the Windows headers. -/
def VK_ESCAPE : Nat := 0x1B

/-- The event `new EvtFrameStart()` that `Update` hands to the event manager. -/
def EvtFrameStart : IEvent := ⟨eEVENT.RENDER_FRAME_START, 0⟩

/-- The two driver types that `ConfigureEngineComponents` asks for. -/
inductive D3D_DRIVER_TYPE where
  | D3D_DRIVER_TYPE_HARDWARE
  | D3D_DRIVER_TYPE_REFERENCE
  deriving DecidableEq, Repr

/-- The calls that `ConfigureEngineComponents` and `Update` make on the window, the
renderer, its immediate pipeline, the timer, the log and the sprite renderer. -/
inductive Call where
  | Window_SetPosition (x y : Int)
  | Window_SetSize (width height : Int)
  | Window_SetCaption
  | Window_Init
  | Renderer_Init (driver : D3D_DRIVER_TYPE)
  | Log_Write
  | ShowWindow_SW_HIDE
  | MessageBox
  | RequestTermination
  | Timer_SetFixedTimeStep (step : ℚ)
  | CreateSwapChain (width height : Int)
  | Window_SetSwapChain
  | GetSwapChainResource
  | CreateTexture2D (width height : Int)
  | ClearRenderTargets
  | BindRenderTargets
  | BindDepthTarget
  | ApplyRenderTargets
  | CreateViewPort (width height : Int)
  | SetViewPort
  | Timer_Update
  | ProcessEvent (e : IEvent)
  | ClearBuffers
  | RenderText
  | Present
  | SaveTextureScreenShot
  deriving DecidableEq, Repr

/-- The state of the application that the event handler and the frame step read and write:
the member `m_bSaveScreenshot`, and whether termination has been requested. -/
structure App where
  m_bSaveScreenshot : Bool
  terminationRequested : Bool
  deriving DecidableEq, Repr

/-- The constructor `App::App()`, App.cpp lines 29-32: `m_bSaveScreenshot = false`; no
termination has been requested yet. -/
def App.new : App := ⟨false, false⟩

/-- Modelled from the spec: `Application::RequestTermination()`, of the base class declared
outside App.cpp; "termination is a cooperative flag checked by an outer loop": the state
records that the call has been made. -/
def App.RequestTermination (app : App) : App :=
  { app with terminationRequested := true }

/-! ## `App::HandleEvent` -/

/-- The keyboard dispatch `App::HandleEvent`, App.cpp lines 226-262: the returned boolean
and the state after the call. -/
def App.HandleEvent (app : App) (pEvent : IEvent) : Bool × App :=
  let e := pEvent.GetEventType
  if e = eEVENT.SYSTEM_KEYBOARD_KEYDOWN then
    (true, app)
  else if e = eEVENT.SYSTEM_KEYBOARD_KEYUP then
    let key := pEvent.GetCharacterCode
    if key = VK_ESCAPE then
      (true, app.RequestTermination)
    else if key = 0x53 then
      (true, { app with m_bSaveScreenshot := true })
    else
      (false, app)
  else
    (false, app)

/-! ## `App::Update` -/

/-- The event types for which `App::Initialize` registers the application as a listener,
App.cpp lines 145-147. -/
def App.listensTo (e : eEVENT) : Bool :=
  e = eEVENT.SYSTEM_KEYBOARD_KEYUP || e = eEVENT.SYSTEM_KEYBOARD_KEYDOWN
    || e = eEVENT.SYSTEM_KEYBOARD_CHAR

/-- Modelled from the spec: `EventManager::ProcessEvent`, of the event manager declared
outside App.cpp, as far as the application state goes: the event reaches `App::HandleEvent`
when the application listens to its type. -/
def App.ProcessEvent (app : App) (e : IEvent) : App :=
  if App.listensTo e.GetEventType then (app.HandleEvent e).2 else app

/-- The frame step `App::Update`, App.cpp lines 162-212: the state after the call and the
calls made, in order.  `UpdateViewState` has an empty body (lines 429-435). -/
def App.Update (app : App) : App × List Call :=
  let t := [Call.Timer_Update]
  let app := app.ProcessEvent EvtFrameStart
  let t := t ++ [Call.ProcessEvent EvtFrameStart]
  let t := t ++ [Call.ClearBuffers]
  let t := if !app.m_bSaveScreenshot then t ++ [Call.RenderText] else t
  let t := t ++ [Call.Present]
  if app.m_bSaveScreenshot then
    ({ app with m_bSaveScreenshot := false }, t ++ [Call.SaveTextureScreenShot])
  else
    (app, t)

/-- Run `Update` for `n` frames in a row, with no event in between: the final state and all
the calls made. -/
def App.runUpdates : Nat → App → App × List Call
  | 0, app => (app, [])
  | n + 1, app =>
    let r := app.Update
    let rest := App.runUpdates n r.1
    (rest.1, r.2 ++ rest.2)

/-! ## `App::ConfigureEngineComponents` -/

/-- What `ConfigureEngineComponents` gives: the returned boolean, the state after the call,
and the calls made, in order. -/
structure ConfigureResult where
  returned : Bool
  app : App
  calls : List Call
  deriving DecidableEq, Repr

/-- The tail of `ConfigureEngineComponents` once a device exists, App.cpp lines 75-116:
swap chain, depth buffer, render targets, view port; returns `true`. -/
def App.configureTargets (width height : Int) (app : App) (t : List Call) : ConfigureResult :=
  { returned := true
    app := app
    calls := t ++ [Call.CreateSwapChain width height, Call.Window_SetSwapChain,
      Call.GetSwapChainResource, Call.CreateTexture2D width height,
      Call.ClearRenderTargets, Call.BindRenderTargets, Call.BindDepthTarget,
      Call.ApplyRenderTargets, Call.CreateViewPort width height, Call.SetViewPort] }

/-- The device set-up `App::ConfigureEngineComponents`, App.cpp lines 34-117.  `h` is the
outcome of `Initialize( D3D_DRIVER_TYPE_HARDWARE, .. )` and `r` the outcome of
`Initialize( D3D_DRIVER_TYPE_REFERENCE, .. )`, should it be called. -/
def App.ConfigureEngineComponents (h r : Bool) (app : App) : ConfigureResult :=
  let width : Int := 640
  let height : Int := 480
  let t := [Call.Window_SetPosition 25 25, Call.Window_SetSize width height,
    Call.Window_SetCaption, Call.Window_Init]
  let t := t ++ [Call.Renderer_Init D3D_DRIVER_TYPE.D3D_DRIVER_TYPE_HARDWARE]
  if !h then
    let t := t ++ [Call.Log_Write]
    let t := t ++ [Call.Renderer_Init D3D_DRIVER_TYPE.D3D_DRIVER_TYPE_REFERENCE]
    if !r then
      let t := t ++ [Call.ShowWindow_SW_HIDE, Call.MessageBox]
      let app := app.RequestTermination
      let t := t ++ [Call.RequestTermination]
      { returned := false, app := app, calls := t }
    else
      let t := t ++ [Call.Timer_SetFixedTimeStep (1 / 10)]
      App.configureTargets width height app t
  else
    App.configureTargets width height app t

/-! ## Theorems: loops as folds -/

/-- A property that holds before a loop and that every pass keeps holds after the loop. -/
theorem foldl_keeps {α β : Type} (P : β → Prop) (f : β → α → β) (l : List α)
    (hf : ∀ b a, a ∈ l → P b → P (f b a)) (b : β) (hb : P b) : P (l.foldl f b) := by
  induction l generalizing b with
  | nil => exact hb
  | cons a l ih =>
    exact ih (fun b c hc hP => hf b c (List.mem_cons_of_mem a hc) hP) (f b a)
      (hf b a (List.mem_cons_self a l) hb)

/-- A property `Q` that the pass for `a0` establishes (from the loop invariant `P`) and that
every pass keeps holds after a loop that runs the pass for `a0`. -/
theorem foldl_reaches {α β : Type} (P Q : β → Prop) (f : β → α → β) (l : List α) (a0 : α)
    (h0 : a0 ∈ l)
    (hP : ∀ b a, a ∈ l → P b → P (f b a))
    (hQ : ∀ b a, a ∈ l → Q b → Q (f b a))
    (hit : ∀ b, P b → Q (f b a0)) (b : β) (hb : P b) : Q (l.foldl f b) := by
  induction l generalizing b with
  | nil => cases h0
  | cons a l ih =>
    have hP' : ∀ b c, c ∈ l → P b → P (f b c) :=
      fun b c hc h => hP b c (List.mem_cons_of_mem a hc) h
    have hQ' : ∀ b c, c ∈ l → Q b → Q (f b c) :=
      fun b c hc h => hQ b c (List.mem_cons_of_mem a hc) h
    rcases List.mem_cons.mp h0 with rfl | hmem
    · exact foldl_keeps Q f l hQ' (f b a0) (hit b hb)
    · exact ih hmem hP' hQ' (f b a) (hP b a (List.mem_cons_self a l) hb)

/-- A loop whose passes append to a list appends the passes' lists in order. -/
theorem foldl_append_flatMap {α β : Type} (g : α → List β) (l : List α) (init : List β) :
    l.foldl (fun acc a => acc ++ g a) init = init ++ l.flatMap g := by
  induction l generalizing init with
  | nil => simp
  | cons a l ih => simp [ih, List.flatMap_cons, List.append_assoc]

/-- The length of the concatenation of lists that all have length `c`. -/
theorem length_flatMap_const {α β : Type} (g : α → List β) (c : Nat) (l : List α)
    (hc : ∀ a, (g a).length = c) : (l.flatMap g).length = c * l.length := by
  induction l with
  | nil => simp
  | cons a l ih => simp [List.flatMap_cons, ih, hc, Nat.mul_succ, Nat.add_comm]

/-! ## Theorems: the index loop -/

/-- Every pass of the body of the index loop adds twelve indices. -/
theorem cellIndices_length (X Z x z : Nat) : (App.cellIndices X Z x z).length = 12 := by
  simp [App.cellIndices]

/-- The index loop appends the twelve indices of every cell, `x` outermost. -/
theorem indexLoop_eq (X Z : Nat) (init : List Int) :
    App.indexLoop X Z init
      = init ++ (List.range X).flatMap
          (fun x => (List.range Z).flatMap (fun z => App.cellIndices X Z x z)) := by
  unfold App.indexLoop
  have hinner : (fun (acc : List Int) (x : Nat) =>
      (List.range Z).foldl (fun acc z => acc ++ App.cellIndices X Z x z) acc)
      = (fun acc x => acc ++ (List.range Z).flatMap (fun z => App.cellIndices X Z x z)) := by
    funext acc x
    exact foldl_append_flatMap _ _ _
  rw [hinner, foldl_append_flatMap]

/-! ## Theorems: the vertex loop -/

/-- The slot `x + z * (X + 1)` determines the grid point, for `x ≤ X`. -/
theorem slot_injective (X x z x0 z0 : Nat) (hx : x ≤ X) (hx0 : x0 ≤ X)
    (h : x + z * (X + 1) = x0 + z0 * (X + 1)) : x = x0 ∧ z = z0 := by
  have hmod := congrArg (fun n => n % (X + 1)) h
  simp only [Nat.add_mul_mod_self_right] at hmod
  rw [Nat.mod_eq_of_lt (by omega), Nat.mod_eq_of_lt (by omega)] at hmod
  subst hmod
  have hmul : z * (X + 1) = z0 * (X + 1) := by omega
  exact ⟨rfl, Nat.eq_of_mul_eq_mul_right (by omega) hmul⟩

/-- The slot of a grid point lies inside the vertex elements. -/
theorem slot_lt (X Z x z : Nat) (hx : x ≤ X) (hz : z ≤ Z) :
    x + z * (X + 1) < (X + 1) * (Z + 1) := by
  have h1 : z * (X + 1) ≤ Z * (X + 1) := Nat.mul_le_mul_right _ hz
  have h2 : (X + 1) * (Z + 1) = Z * (X + 1) + (X + 1) := by ring
  omega

/-- A pass of the vertex loop keeps the sizes of the two vertex elements. -/
theorem vertexBody_length (X Z x z : Nat) (d : VertexData) :
    (App.vertexBody X Z x z d).pPosData.length = d.pPosData.length
    ∧ (App.vertexBody X Z x z d).pTCData.length = d.pTCData.length := by
  simp [App.vertexBody]

/-- The vertex loop keeps the sizes of the two vertex elements. -/
theorem vertexLoop_length (X Z n : Nat) (d : VertexData)
    (hd : d.pPosData.length = n ∧ d.pTCData.length = n) :
    (App.vertexLoop X Z d).pPosData.length = n ∧ (App.vertexLoop X Z d).pTCData.length = n := by
  unfold App.vertexLoop
  refine foldl_keeps (fun d => d.pPosData.length = n ∧ d.pTCData.length = n) _ _ ?_ d hd
  intro d x _ hd
  refine foldl_keeps (fun d => d.pPosData.length = n ∧ d.pTCData.length = n) _ _ ?_ d hd
  intro d z _ hd
  have h := vertexBody_length X Z x z d
  exact ⟨h.1.trans hd.1, h.2.trans hd.2⟩

/-- A pass of the vertex loop for a grid point with `x ≤ X` keeps what the pass for the grid
point `(x0, z0)` stored: it writes another slot, or it is that pass. -/
theorem vertexBody_keeps (X Z x z x0 z0 : Nat) (hx : x ≤ X) (hx0 : x0 ≤ X) (d : VertexData)
    (hd : d.pPosData[x0 + z0 * (X + 1)]?
            = some ⟨(x0 : ℚ) / (X : ℚ) - 1 / 2, 0, (z0 : ℚ) / (Z : ℚ) - 1 / 2⟩
          ∧ d.pTCData[x0 + z0 * (X + 1)]?
            = some ⟨(x0 : ℚ) / (X : ℚ) - 1 / 2 + 1 / 2, (z0 : ℚ) / (Z : ℚ) - 1 / 2 + 1 / 2⟩) :
    (App.vertexBody X Z x z d).pPosData[x0 + z0 * (X + 1)]?
        = some ⟨(x0 : ℚ) / (X : ℚ) - 1 / 2, 0, (z0 : ℚ) / (Z : ℚ) - 1 / 2⟩
    ∧ (App.vertexBody X Z x z d).pTCData[x0 + z0 * (X + 1)]?
        = some ⟨(x0 : ℚ) / (X : ℚ) - 1 / 2 + 1 / 2, (z0 : ℚ) / (Z : ℚ) - 1 / 2 + 1 / 2⟩ := by
  obtain ⟨hpos, htc⟩ := hd
  obtain ⟨hlenP, _⟩ := List.getElem?_eq_some.mp hpos
  obtain ⟨hlenT, _⟩ := List.getElem?_eq_some.mp htc
  by_cases hslot : x + z * (X + 1) = x0 + z0 * (X + 1)
  · obtain ⟨rfl, rfl⟩ := slot_injective X x z x0 z0 hx hx0 hslot
    simp only [App.vertexBody]
    exact ⟨List.getElem?_set_self hlenP, List.getElem?_set_self hlenT⟩
  · simp only [App.vertexBody]
    rw [List.getElem?_set_ne hslot, List.getElem?_set_ne hslot]
    exact ⟨hpos, htc⟩

/-- After the vertex loop, the slot `x0 + z0 * (X + 1)` of a grid point `(x0, z0)` holds
what the pass for that grid point stored. -/
theorem vertexLoop_slot (X Z x0 z0 : Nat) (hx0 : x0 ≤ X) (hz0 : z0 ≤ Z) (d : VertexData)
    (hd : d.pPosData.length = (X + 1) * (Z + 1) ∧ d.pTCData.length = (X + 1) * (Z + 1)) :
    (App.vertexLoop X Z d).pPosData[x0 + z0 * (X + 1)]?
        = some ⟨(x0 : ℚ) / (X : ℚ) - 1 / 2, 0, (z0 : ℚ) / (Z : ℚ) - 1 / 2⟩
    ∧ (App.vertexLoop X Z d).pTCData[x0 + z0 * (X + 1)]?
        = some ⟨(x0 : ℚ) / (X : ℚ) - 1 / 2 + 1 / 2, (z0 : ℚ) / (Z : ℚ) - 1 / 2 + 1 / 2⟩ := by
  have hlt := slot_lt X Z x0 z0 hx0 hz0
  have hmemx : x0 ∈ List.range (X + 1) := List.mem_range.mpr (Nat.lt_succ_of_le hx0)
  have hmemz : z0 ∈ List.range (Z + 1) := List.mem_range.mpr (Nat.lt_succ_of_le hz0)
  unfold App.vertexLoop
  refine foldl_reaches
    (fun d : VertexData =>
        d.pPosData.length = (X + 1) * (Z + 1) ∧ d.pTCData.length = (X + 1) * (Z + 1))
    (fun d : VertexData =>
        d.pPosData[x0 + z0 * (X + 1)]?
          = some ⟨(x0 : ℚ) / (X : ℚ) - 1 / 2, 0, (z0 : ℚ) / (Z : ℚ) - 1 / 2⟩
        ∧ d.pTCData[x0 + z0 * (X + 1)]?
          = some ⟨(x0 : ℚ) / (X : ℚ) - 1 / 2 + 1 / 2, (z0 : ℚ) / (Z : ℚ) - 1 / 2 + 1 / 2⟩)
    _ _ x0 hmemx ?_ ?_ ?_ d hd
  · -- every pass of the outer loop keeps the sizes
    intro d x _ hd
    refine foldl_keeps
      (fun d : VertexData =>
        d.pPosData.length = (X + 1) * (Z + 1) ∧ d.pTCData.length = (X + 1) * (Z + 1))
      _ _ ?_ d hd
    intro d z _ hd
    have h := vertexBody_length X Z x z d
    exact ⟨h.1.trans hd.1, h.2.trans hd.2⟩
  · -- every pass of the outer loop keeps the stored values
    intro d x hx hd
    have hxX : x ≤ X := Nat.le_of_lt_succ (List.mem_range.mp hx)
    refine foldl_keeps
      (fun d : VertexData =>
        d.pPosData[x0 + z0 * (X + 1)]?
          = some ⟨(x0 : ℚ) / (X : ℚ) - 1 / 2, 0, (z0 : ℚ) / (Z : ℚ) - 1 / 2⟩
        ∧ d.pTCData[x0 + z0 * (X + 1)]?
          = some ⟨(x0 : ℚ) / (X : ℚ) - 1 / 2 + 1 / 2, (z0 : ℚ) / (Z : ℚ) - 1 / 2 + 1 / 2⟩)
      _ _ ?_ d hd
    intro d z _ hd
    exact vertexBody_keeps X Z x z x0 z0 hxX hx0 d hd
  · -- the pass for x0 of the outer loop stores the values, in its pass for z0
    intro d hd
    refine foldl_reaches
      (fun d : VertexData =>
        d.pPosData.length = (X + 1) * (Z + 1) ∧ d.pTCData.length = (X + 1) * (Z + 1))
      (fun d : VertexData =>
        d.pPosData[x0 + z0 * (X + 1)]?
          = some ⟨(x0 : ℚ) / (X : ℚ) - 1 / 2, 0, (z0 : ℚ) / (Z : ℚ) - 1 / 2⟩
        ∧ d.pTCData[x0 + z0 * (X + 1)]?
          = some ⟨(x0 : ℚ) / (X : ℚ) - 1 / 2 + 1 / 2, (z0 : ℚ) / (Z : ℚ) - 1 / 2 + 1 / 2⟩)
      _ _ z0 hmemz ?_ ?_ ?_ d hd
    · intro d z _ hd
      have h := vertexBody_length X Z x0 z d
      exact ⟨h.1.trans hd.1, h.2.trans hd.2⟩
    · intro d z _ hd
      exact vertexBody_keeps X Z x0 z x0 z0 hx0 hx0 d hd
    · intro d hd
      simp only [App.vertexBody]
      exact ⟨List.getElem?_set_self (by rw [hd.1]; exact hlt),
        List.getElem?_set_self (by rw [hd.2]; exact hlt)⟩

/-- The vertex elements that `CreateTerrainGeometry` allocates have
`(X + 1) * (Z + 1)` elements each. -/
theorem createTerrainGeometry_sizes (X Z : Nat) :
    (App.CreateTerrainGeometry X Z).pPositions.length = (X + 1) * (Z + 1)
    ∧ (App.CreateTerrainGeometry X Z).pTexCoords.length = (X + 1) * (Z + 1) := by
  simp only [App.CreateTerrainGeometry]
  exact vertexLoop_length X Z _ _ ⟨by simp [VertexElementDX11], by simp [VertexElementDX11]⟩

/-- What `CreateTerrainGeometry` stores for the grid point `(x, z)`. -/
theorem createTerrainGeometry_slot (X Z x z : Nat) (hx : x ≤ X) (hz : z ≤ Z) :
    (App.CreateTerrainGeometry X Z).pPositions[x + z * (X + 1)]?
        = some ⟨(x : ℚ) / (X : ℚ) - 1 / 2, 0, (z : ℚ) / (Z : ℚ) - 1 / 2⟩
    ∧ (App.CreateTerrainGeometry X Z).pTexCoords[x + z * (X + 1)]?
        = some ⟨(x : ℚ) / (X : ℚ), (z : ℚ) / (Z : ℚ)⟩ := by
  have h := vertexLoop_slot X Z x z hx hz
    ⟨VertexElementDX11 ⟨0, 0, 0⟩ ((X + 1) * (Z + 1)), VertexElementDX11 ⟨0, 0⟩ ((X + 1) * (Z + 1))⟩
    ⟨by simp [VertexElementDX11], by simp [VertexElementDX11]⟩
  simp only [sub_add_cancel] at h
  simpa only [App.CreateTerrainGeometry] using h

/-! ## Theorems: `App::CreateTerrainGeometry` -/

/-- C1, evaluated on the 2 x 1 grid (`TERRAIN_X_LEN = 2`, `TERRAIN_Z_LEN = 1`): the builder
allocates 6 control points, and the twelve indices emitted for the cell `(1, 0)` are
3, 4, 6, 7, 6, 7, 4, 7, 0, 1, 3, 6; the indices 6 and 7 are not below 6, so not all twelve
indices of that cell are at least 0 and below the number of control points. -/
theorem createTerrainGeometry_index_out_of_range :
    (App.CreateTerrainGeometry 2 1).pPositions.length = 6
    ∧ App.cellIndices 2 1 1 0 = [3, 4, 6, 7, 6, 7, 4, 7, 0, 1, 3, 6]
    ∧ (7 : Int) ∈ (App.CreateTerrainGeometry 2 1).indices
    ∧ ¬ (∀ i ∈ App.cellIndices 2 1 1 0,
          0 ≤ i ∧ i < (((App.CreateTerrainGeometry 2 1).pPositions.length : Nat) : Int)) := by
  decide

/-- C2: for all grid dimensions `X` and `Z` (so for all `X ≥ 1` and `Z ≥ 1`),
`CreateTerrainGeometry` allocates exactly `(X + 1) * (Z + 1)` positions and exactly
`(X + 1) * (Z + 1)` texcoords, and emits exactly `12 * X * Z` indices: the twelve indices of
each cell `(x, z)` with `x < X` and `z < Z`, each cell once; a 2 x 2 grid gives 9 control
points and 48 indices. -/
theorem createTerrainGeometry_counts (X Z : Nat) :
    (App.CreateTerrainGeometry X Z).pPositions.length = (X + 1) * (Z + 1)
    ∧ (App.CreateTerrainGeometry X Z).pTexCoords.length = (X + 1) * (Z + 1)
    ∧ (App.CreateTerrainGeometry X Z).indices.length = 12 * X * Z
    ∧ (App.CreateTerrainGeometry X Z).indices
        = (List.range X).flatMap
            (fun x => (List.range Z).flatMap (fun z => App.cellIndices X Z x z))
    ∧ (∀ x z, (App.cellIndices X Z x z).length = 12)
    ∧ (App.CreateTerrainGeometry 2 2).pPositions.length = 9
    ∧ (App.CreateTerrainGeometry 2 2).pTexCoords.length = 9
    ∧ (App.CreateTerrainGeometry 2 2).indices.length = 48 := by
  have hidx : (App.CreateTerrainGeometry X Z).indices
      = (List.range X).flatMap
          (fun x => (List.range Z).flatMap (fun z => App.cellIndices X Z x z)) := by
    simp only [App.CreateTerrainGeometry]
    rw [indexLoop_eq, List.nil_append]
  have hcell : ∀ x, ((List.range Z).flatMap (fun z => App.cellIndices X Z x z)).length
      = 12 * Z := by
    intro x
    rw [length_flatMap_const _ 12 _ (fun z => cellIndices_length X Z x z), List.length_range]
  refine ⟨(createTerrainGeometry_sizes X Z).1, (createTerrainGeometry_sizes X Z).2, ?_, hidx,
    fun x z => cellIndices_length X Z x z, by decide, by decide, by decide⟩
  rw [hidx, length_flatMap_const _ (12 * Z) _ hcell, List.length_range]
  ring

/-- C3: for all `X ≥ 1`, `Z ≥ 1` and every grid point `(x, z)` with `x ≤ X` and `z ≤ Z`,
after `CreateTerrainGeometry` the slot `x + z * (X + 1)` holds the position
`(x/X - 1/2, 0, z/Z - 1/2)` and the texcoord `(x/X, z/Z)`, in exact rational arithmetic;
the position of the grid point `(0, 0)` is `(-1/2, 0, -1/2)`, the position of the grid point
`(X, Z)` is `(1/2, 0, 1/2)`, and every component of every texcoord lies in `[0, 1]`. -/
theorem createTerrainGeometry_vertices (X Z x z : Nat) (hX : 1 ≤ X) (hZ : 1 ≤ Z)
    (hx : x ≤ X) (hz : z ≤ Z) :
    (App.CreateTerrainGeometry X Z).pPositions[x + z * (X + 1)]?
        = some ⟨(x : ℚ) / (X : ℚ) - 1 / 2, 0, (z : ℚ) / (Z : ℚ) - 1 / 2⟩
    ∧ (App.CreateTerrainGeometry X Z).pTexCoords[x + z * (X + 1)]?
        = some ⟨(x : ℚ) / (X : ℚ), (z : ℚ) / (Z : ℚ)⟩
    ∧ (App.CreateTerrainGeometry X Z).pPositions[0 + 0 * (X + 1)]?
        = some ⟨-1 / 2, 0, -1 / 2⟩
    ∧ (App.CreateTerrainGeometry X Z).pPositions[X + Z * (X + 1)]?
        = some ⟨1 / 2, 0, 1 / 2⟩
    ∧ (∀ t ∈ (App.CreateTerrainGeometry X Z).pTexCoords,
        0 ≤ t.x ∧ t.x ≤ 1 ∧ 0 ≤ t.y ∧ t.y ≤ 1) := by
  have hXq : (0 : ℚ) < (X : ℚ) := by exact_mod_cast hX
  have hZq : (0 : ℚ) < (Z : ℚ) := by exact_mod_cast hZ
  refine ⟨(createTerrainGeometry_slot X Z x z hx hz).1,
    (createTerrainGeometry_slot X Z x z hx hz).2, ?_, ?_, ?_⟩
  · have h := (createTerrainGeometry_slot X Z 0 0 (Nat.zero_le X) (Nat.zero_le Z)).1
    rw [h]
    norm_num
  · have h := (createTerrainGeometry_slot X Z X Z (le_refl X) (le_refl Z)).1
    rw [h, div_self hXq.ne', div_self hZq.ne']
    norm_num
  · intro t ht
    obtain ⟨s, hs⟩ := List.mem_iff_getElem?.mp ht
    obtain ⟨hlen, _⟩ := List.getElem?_eq_some.mp hs
    rw [(createTerrainGeometry_sizes X Z).2] at hlen
    have hdecomp : s % (X + 1) + s / (X + 1) * (X + 1) = s := by
      rw [Nat.mul_comm]
      exact Nat.mod_add_div s (X + 1)
    have hxs : s % (X + 1) ≤ X := Nat.le_of_lt_succ (Nat.mod_lt s (Nat.succ_pos X))
    have hzs : s / (X + 1) ≤ Z := by
      apply Nat.le_of_lt_succ
      rw [Nat.div_lt_iff_lt_mul (Nat.succ_pos X)]
      rw [Nat.mul_comm] at hlen
      exact hlen
    have h := (createTerrainGeometry_slot X Z (s % (X + 1)) (s / (X + 1)) hxs hzs).2
    rw [hdecomp, hs] at h
    have ht : t = ⟨((s % (X + 1) : Nat) : ℚ) / (X : ℚ), ((s / (X + 1) : Nat) : ℚ) / (Z : ℚ)⟩ :=
      Option.some.inj h
    have hxq : ((s % (X + 1) : Nat) : ℚ) ≤ (X : ℚ) := by exact_mod_cast hxs
    have hzq : ((s / (X + 1) : Nat) : ℚ) ≤ (Z : ℚ) := by exact_mod_cast hzs
    subst ht
    exact ⟨div_nonneg (Nat.cast_nonneg _) hXq.le, (div_le_one hXq).mpr hxq,
      div_nonneg (Nat.cast_nonneg _) hZq.le, (div_le_one hZq).mpr hzq⟩

/-- Witness of C3, on the 2 x 2 grid at the grid point `(1, 2)`: slot 7 holds the position
`(0, 0, 1/2)` and the texcoord `(1/2, 1)`; slot 0 holds `(-1/2, 0, -1/2)` and slot 8 holds
`(1/2, 0, 1/2)`. -/
theorem createTerrainGeometry_vertices_witness :
    (App.CreateTerrainGeometry 2 2).pPositions[7]? = some ⟨0, 0, 1 / 2⟩
    ∧ (App.CreateTerrainGeometry 2 2).pTexCoords[7]? = some ⟨1 / 2, 1⟩
    ∧ (App.CreateTerrainGeometry 2 2).pPositions[0]? = some ⟨-1 / 2, 0, -1 / 2⟩
    ∧ (App.CreateTerrainGeometry 2 2).pPositions[8]? = some ⟨1 / 2, 0, 1 / 2⟩ := by
  have h := createTerrainGeometry_vertices 2 2 1 2 (by decide) (by decide) (by decide)
    (by decide)
  norm_num at h ⊢
  exact ⟨h.1, h.2.1, h.2.2.1, h.2.2.2.1⟩

/-! ## Theorems: `int` arithmetic without overflow -/

/-- An `int` result inside `-2^31 .. 2^31 - 1` is the exact result. -/
theorem int32_eq (v : Int) (h1 : -2147483648 ≤ v) (h2 : v < 2147483648) : int32 v = v := by
  unfold int32
  omega

/-- Every `int` result lies inside `-2^31 .. 2^31 - 1`. -/
theorem int32_range (v : Int) : -2147483648 ≤ int32 v ∧ int32 v < 2147483648 := by
  unfold int32
  omega

/-- The macro `clamp` with the bounds 0 and `M ≥ 0` gives a value between 0 and `M`. -/
theorem clamp_bounds (v M : Int) (hM : 0 ≤ M) : 0 ≤ clamp v 0 M ∧ clamp v 0 M ≤ M := by
  simp only [clamp]
  omega

/-- An index `a + b * (X + 1)` with `0 ≤ a ≤ Z` and `0 ≤ b ≤ X` is computed without
overflow when `Z + X * (X + 1)` is an `int`. -/
theorem add32_mul32 (X Z a b : Int) (ha : 0 ≤ a ∧ a ≤ Z) (hb : 0 ≤ b ∧ b ≤ X)
    (hbound : Z + X * (X + 1) < 2147483648) :
    add32 a (mul32 b (X + 1)) = a + b * (X + 1) := by
  have hX : 0 ≤ X := le_trans hb.1 hb.2
  have h1 : 0 ≤ b * (X + 1) := mul_nonneg hb.1 (by omega)
  have h2 : b * (X + 1) ≤ X * (X + 1) := mul_le_mul_of_nonneg_right hb.2 (by omega)
  unfold add32 mul32
  rw [int32_eq (b * (X + 1)) (by omega) (by omega), int32_eq _ (by omega) (by omega)]

/-- The sums and differences of the loop counters in the body of the index loop do not
overflow when `Z + X * (X + 1)` is an `int`. -/
theorem counters_no_overflow (X Z x z : Nat) (hx : x < X) (hz : z < Z)
    (hb : (Z : Int) + (X : Int) * ((X : Int) + 1) < 2147483648) :
    add32 (z : Int) 0 = z ∧ add32 (z : Int) 1 = z + 1 ∧ add32 (z : Int) 2 = z + 2
    ∧ sub32 (z : Int) 1 = z - 1
    ∧ add32 (x : Int) 0 = x ∧ add32 (x : Int) 1 = x + 1 ∧ add32 (x : Int) 2 = x + 2
    ∧ sub32 (x : Int) 1 = x - 1
    ∧ add32 (X : Int) 1 = X + 1 := by
  have hX1 : (1 : Int) ≤ (X : Int) := by omega
  have hXX : (X : Int) + 1 ≤ (X : Int) * ((X : Int) + 1) := by nlinarith
  have hzb : (z : Int) + 2 < 2147483648 := by omega
  have hxb : (x : Int) + 2 < 2147483648 := by omega
  have hXb : (X : Int) + 1 < 2147483648 := by omega
  have hXn : (0 : Int) ≤ (X : Int) := Int.natCast_nonneg X
  have hz0 : (0 : Int) ≤ (z : Int) := Int.natCast_nonneg z
  have hx0 : (0 : Int) ≤ (x : Int) := Int.natCast_nonneg x
  clear hb hXX hx hz hX1
  refine ⟨?_, ?_, ?_, ?_, ?_, ?_, ?_, ?_, ?_⟩
  · unfold add32
    rw [add_zero]
    exact int32_eq _ (by omega) (by omega)
  · exact int32_eq _ (by omega) (by omega)
  · exact int32_eq _ (by omega) (by omega)
  · exact int32_eq _ (by omega) (by omega)
  · unfold add32
    rw [add_zero]
    exact int32_eq _ (by omega) (by omega)
  · exact int32_eq _ (by omega) (by omega)
  · exact int32_eq _ (by omega) (by omega)
  · exact int32_eq _ (by omega) (by omega)
  · exact int32_eq _ (by omega) (by omega)

/-- The twelve indices of a cell when `Z + X * (X + 1)` is an `int`: no `int` expression
of the body of the index loop overflows, and the indices are the exact values. -/
theorem cellIndices_no_overflow (X Z x z : Nat) (hx : x < X) (hz : z < Z)
    (hb : (Z : Int) + (X : Int) * ((X : Int) + 1) < 2147483648) :
    App.cellIndices X Z x z
      = [ (z : Int) + (x : Int) * ((X : Int) + 1),
          ((z : Int) + 1) + (x : Int) * ((X : Int) + 1),
          (z : Int) + ((x : Int) + 1) * ((X : Int) + 1),
          ((z : Int) + 1) + ((x : Int) + 1) * ((X : Int) + 1),
          clamp (z : Int) 0 Z + clamp ((x : Int) + 2) 0 X * ((X : Int) + 1),
          clamp ((z : Int) + 1) 0 Z + clamp ((x : Int) + 2) 0 X * ((X : Int) + 1),
          clamp ((z : Int) + 2) 0 Z + clamp (x : Int) 0 X * ((X : Int) + 1),
          clamp ((z : Int) + 2) 0 Z + clamp ((x : Int) + 1) 0 X * ((X : Int) + 1),
          clamp (z : Int) 0 Z + clamp ((x : Int) - 1) 0 X * ((X : Int) + 1),
          clamp ((z : Int) + 1) 0 Z + clamp ((x : Int) - 1) 0 X * ((X : Int) + 1),
          clamp ((z : Int) - 1) 0 Z + clamp (x : Int) 0 X * ((X : Int) + 1),
          clamp ((z : Int) - 1) 0 Z + clamp ((x : Int) + 1) 0 X * ((X : Int) + 1) ] := by
  have hX0 : (0 : Int) ≤ (X : Int) := by omega
  have hZ0 : (0 : Int) ≤ (Z : Int) := by omega
  have hA0 : (0 : Int) ≤ (z : Int) ∧ (z : Int) ≤ (Z : Int) := by omega
  have hA1 : (0 : Int) ≤ (z : Int) + 1 ∧ (z : Int) + 1 ≤ (Z : Int) := by omega
  have hB0 : (0 : Int) ≤ (x : Int) ∧ (x : Int) ≤ (X : Int) := by omega
  have hB1 : (0 : Int) ≤ (x : Int) + 1 ∧ (x : Int) + 1 ≤ (X : Int) := by omega
  obtain ⟨a0, a1, a2, am, b0, b1, b2, bm, t1⟩ := counters_no_overflow X Z x z hx hz hb
  simp only [App.cellIndices, a0, a1, a2, am, b0, b1, b2, bm, t1]
  rw [add32_mul32 X Z _ _ hA0 hB0 hb, add32_mul32 X Z _ _ hA1 hB0 hb,
    add32_mul32 X Z _ _ hA0 hB1 hb, add32_mul32 X Z _ _ hA1 hB1 hb,
    add32_mul32 X Z _ _ (clamp_bounds (z : Int) Z hZ0) (clamp_bounds ((x : Int) + 2) X hX0) hb,
    add32_mul32 X Z _ _ (clamp_bounds ((z : Int) + 1) Z hZ0)
      (clamp_bounds ((x : Int) + 2) X hX0) hb,
    add32_mul32 X Z _ _ (clamp_bounds ((z : Int) + 2) Z hZ0) (clamp_bounds (x : Int) X hX0) hb,
    add32_mul32 X Z _ _ (clamp_bounds ((z : Int) + 2) Z hZ0)
      (clamp_bounds ((x : Int) + 1) X hX0) hb,
    add32_mul32 X Z _ _ (clamp_bounds (z : Int) Z hZ0) (clamp_bounds ((x : Int) - 1) X hX0) hb,
    add32_mul32 X Z _ _ (clamp_bounds ((z : Int) + 1) Z hZ0)
      (clamp_bounds ((x : Int) - 1) X hX0) hb,
    add32_mul32 X Z _ _ (clamp_bounds ((z : Int) - 1) Z hZ0) (clamp_bounds (x : Int) X hX0) hb,
    add32_mul32 X Z _ _ (clamp_bounds ((z : Int) - 1) Z hZ0)
      (clamp_bounds ((x : Int) + 1) X hX0) hb]

/-! ## Theorems: the control points of a cell's quad -/

/-- The control points that the first four indices of a cell `(x, z)` address, when they
lie inside the grid (`z + 1 ≤ X` and `x + 1 ≤ Z`, as in every cell of a square grid) and
`Z + X * (X + 1)` is an `int`: the index `z' + x' * (X + 1)` is the slot of the grid point
`(z', x')`. -/
theorem quadCorners_eq (X Z x z : Nat) (hx : x < X) (hz : z < Z) (hzX : z + 1 ≤ X)
    (hxZ : x + 1 ≤ Z) (hb : (Z : Int) + (X : Int) * ((X : Int) + 1) < 2147483648) :
    App.quadCorners X Z x z
      = [some ⟨(z : ℚ) / (X : ℚ) - 1 / 2, 0, (x : ℚ) / (Z : ℚ) - 1 / 2⟩,
         some ⟨((z + 1 : Nat) : ℚ) / (X : ℚ) - 1 / 2, 0, (x : ℚ) / (Z : ℚ) - 1 / 2⟩,
         some ⟨(z : ℚ) / (X : ℚ) - 1 / 2, 0, ((x + 1 : Nat) : ℚ) / (Z : ℚ) - 1 / 2⟩,
         some ⟨((z + 1 : Nat) : ℚ) / (X : ℚ) - 1 / 2, 0,
           ((x + 1 : Nat) : ℚ) / (Z : ℚ) - 1 / 2⟩] := by
  have e0 : (z : Int) + (x : Int) * ((X : Int) + 1)
      = ((z + x * (X + 1) : Nat) : Int) := by push_cast; ring
  have e1 : ((z : Int) + 1) + (x : Int) * ((X : Int) + 1)
      = (((z + 1) + x * (X + 1) : Nat) : Int) := by push_cast; ring
  have e2 : (z : Int) + ((x : Int) + 1) * ((X : Int) + 1)
      = ((z + (x + 1) * (X + 1) : Nat) : Int) := by push_cast; ring
  have e3 : ((z : Int) + 1) + ((x : Int) + 1) * ((X : Int) + 1)
      = (((z + 1) + (x + 1) * (X + 1) : Nat) : Int) := by push_cast; ring
  have s0 := (createTerrainGeometry_slot X Z z x (by omega) (by omega)).1
  have s1 := (createTerrainGeometry_slot X Z (z + 1) x (by omega) (by omega)).1
  have s2 := (createTerrainGeometry_slot X Z z (x + 1) (by omega) (by omega)).1
  have s3 := (createTerrainGeometry_slot X Z (z + 1) (x + 1) (by omega) (by omega)).1
  simp only [App.quadCorners, cellIndices_no_overflow X Z x z hx hz hb, List.take_succ_cons,
    List.take_zero, List.map_cons, List.map_nil, e0, e1, e2, e3, Int.toNat_ofNat,
    Int.natCast_nonneg, if_true, s0, s1, s2, s3]

/-- C11, evaluated on the 2 x 2 grid at the cell `(0, 1)`: the first four indices emitted
for the cell are 1, 2, 4, 5, and the positions stored at these indices are
`(0, 0, -1/2)`, `(1/2, 0, -1/2)`, `(0, 0, 0)`, `(1/2, 0, 0)`, those of the grid points
`(1, 0)`, `(2, 0)`, `(1, 1)`, `(2, 1)`; they are not the positions `(-1/2, 0, 0)`,
`(-1/2, 0, 1/2)`, `(0, 0, 0)`, `(0, 0, 1/2)` of the grid points `(0, 1)`, `(0, 2)`,
`(1, 1)`, `(1, 2)`. -/
theorem createTerrainGeometry_quad_transposed :
    (App.cellIndices 2 2 0 1).take 4 = [1, 2, 4, 5]
    ∧ App.quadCorners 2 2 0 1
        = [some ⟨0, 0, -1 / 2⟩, some ⟨1 / 2, 0, -1 / 2⟩, some ⟨0, 0, 0⟩, some ⟨1 / 2, 0, 0⟩]
    ∧ App.quadCorners 2 2 0 1
        ≠ [some ⟨(0 : ℚ) / 2 - 1 / 2, 0, (1 : ℚ) / 2 - 1 / 2⟩,
           some ⟨(0 : ℚ) / 2 - 1 / 2, 0, (2 : ℚ) / 2 - 1 / 2⟩,
           some ⟨(1 : ℚ) / 2 - 1 / 2, 0, (1 : ℚ) / 2 - 1 / 2⟩,
           some ⟨(1 : ℚ) / 2 - 1 / 2, 0, (2 : ℚ) / 2 - 1 / 2⟩] := by
  have h := quadCorners_eq 2 2 0 1 (by decide) (by decide) (by decide) (by decide) (by decide)
  refine ⟨by decide, ?_, ?_⟩
  · rw [h]
    norm_num
  · rw [h]
    norm_num

/-! ## Theorems: the range of the emitted indices -/

/-- The indices of `CreateTerrainGeometry` are the indices of the cells, `x` outermost. -/
theorem createTerrainGeometry_indices (X Z : Nat) :
    (App.CreateTerrainGeometry X Z).indices
      = (List.range X).flatMap
          (fun x => (List.range Z).flatMap (fun z => App.cellIndices X Z x z)) := by
  simp only [App.CreateTerrainGeometry]
  rw [indexLoop_eq, List.nil_append]

/-- An index is emitted exactly when it is one of the twelve indices of a cell. -/
theorem mem_indices_iff (X Z : Nat) (i : Int) :
    i ∈ (App.CreateTerrainGeometry X Z).indices
      ↔ ∃ x, x < X ∧ ∃ z, z < Z ∧ i ∈ App.cellIndices X Z x z := by
  rw [createTerrainGeometry_indices]
  simp only [List.mem_flatMap, List.mem_range]

/-- An index `a + b * (X + 1)` with `0 ≤ a ≤ Z` and `0 ≤ b ≤ X` lies between 0 and
`Z + X * (X + 1)`. -/
theorem index_bounds (X Z a b : Int) (ha : 0 ≤ a ∧ a ≤ Z) (hb : 0 ≤ b ∧ b ≤ X) :
    0 ≤ a + b * (X + 1) ∧ a + b * (X + 1) ≤ Z + X * (X + 1) := by
  have hX : 0 ≤ X := le_trans hb.1 hb.2
  have h1 : 0 ≤ b * (X + 1) := mul_nonneg hb.1 (by omega)
  have h2 : b * (X + 1) ≤ X * (X + 1) := mul_le_mul_of_nonneg_right hb.2 (by omega)
  omega

/-- Every index of a cell lies between 0 and `Z + X * (X + 1)`, when that is an `int`. -/
theorem cellIndices_bounds (X Z x z : Nat) (hx : x < X) (hz : z < Z)
    (hb : (Z : Int) + (X : Int) * ((X : Int) + 1) < 2147483648) (i : Int)
    (hi : i ∈ App.cellIndices X Z x z) :
    0 ≤ i ∧ i ≤ (Z : Int) + (X : Int) * ((X : Int) + 1) := by
  rw [cellIndices_no_overflow X Z x z hx hz hb] at hi
  simp only [List.mem_cons, List.mem_singleton, List.not_mem_nil, or_false] at hi
  rcases hi with h | h | h | h | h | h | h | h | h | h | h | h <;>
    (subst h
     refine index_bounds _ _ _ _ ⟨?_, ?_⟩ ⟨?_, ?_⟩ <;> (try simp only [clamp]) <;> omega)

/-- The index `Z + X * (X + 1)` is emitted, for the cell `(X - 1, Z - 1)`, when it is an
`int`. -/
theorem largest_index_mem (X Z : Nat) (hX : 1 ≤ X) (hZ : 1 ≤ Z)
    (hb : (Z : Int) + (X : Int) * ((X : Int) + 1) < 2147483648) :
    (Z : Int) + (X : Int) * ((X : Int) + 1) ∈ (App.CreateTerrainGeometry X Z).indices := by
  rw [mem_indices_iff]
  refine ⟨X - 1, by omega, Z - 1, by omega, ?_⟩
  have h1 : (((X - 1 : Nat)) : Int) = (X : Int) - 1 := by omega
  have h2 : (((Z - 1 : Nat)) : Int) = (Z : Int) - 1 := by omega
  rw [cellIndices_no_overflow X Z (X - 1) (Z - 1) (by omega) (by omega) hb]
  simp only [List.mem_cons, h1, h2]
  right; right; right; left
  ring

/-- Every `int` sum lies inside `-2^31 .. 2^31 - 1`. -/
theorem add32_range (a b : Int) : -2147483648 ≤ add32 a b ∧ add32 a b < 2147483648 := by
  unfold add32
  exact int32_range _

/-- Every index of a cell is an `int`: it lies inside `-2^31 .. 2^31 - 1`. -/
theorem cellIndices_int32 (X Z x z : Nat) (i : Int) (hi : i ∈ App.cellIndices X Z x z) :
    -2147483648 ≤ i ∧ i < 2147483648 := by
  simp only [App.cellIndices, List.mem_cons, List.mem_singleton, List.not_mem_nil,
    or_false] at hi
  rcases hi with h | h | h | h | h | h | h | h | h | h | h | h <;>
    (rw [h]; exact add32_range _ _)

/-- Every emitted index is an `int`: it lies inside `-2^31 .. 2^31 - 1`. -/
theorem indices_int32 (X Z : Nat) (i : Int) (hi : i ∈ (App.CreateTerrainGeometry X Z).indices) :
    -2147483648 ≤ i ∧ i < 2147483648 := by
  obtain ⟨x, _, z, _, hcell⟩ := (mem_indices_iff X Z i).mp hi
  exact cellIndices_int32 X Z x z i hcell

/-- The index `Z + X * (X + 1)` is below `(X + 1) * (Z + 1)` exactly when `X ≤ Z`. -/
theorem largest_index_lt_iff (X Z : Nat) (hX : 1 ≤ X) :
    (Z : Int) + (X : Int) * ((X : Int) + 1) < ((X : Int) + 1) * ((Z : Int) + 1) ↔ X ≤ Z := by
  have hX' : (1 : Int) ≤ (X : Int) := by exact_mod_cast hX
  constructor
  · intro h
    by_contra hlt
    have hZX : (Z : Int) + 1 ≤ (X : Int) := by omega
    have hmul : (X : Int) * ((Z : Int) + 1) ≤ (X : Int) * (X : Int) :=
      mul_le_mul_of_nonneg_left hZX (by omega)
    nlinarith
  · intro h
    have hXZ : (X : Int) ≤ (Z : Int) := by exact_mod_cast h
    have hmul : (X : Int) * (X : Int) ≤ (X : Int) * (Z : Int) :=
      mul_le_mul_of_nonneg_left hXZ (by omega)
    nlinarith

/-- C12, as stated, fails on the 46341 x 1 grid (92684 control points): there
`Z + X * (X + 1)` is 2147534623, above the largest `int`, and it is not an emitted index;
the first index emitted for the cell `(46340, 0)`, `0 + 46340 * 46342` as an `int`, is
-2147479016, so not every emitted index is at least 0 either. -/
theorem createTerrainGeometry_largest_index_overflow :
    ¬ ((((1 : Nat) : Int) + ((46341 : Nat) : Int) * (((46341 : Nat) : Int) + 1))
        ∈ (App.CreateTerrainGeometry 46341 1).indices)
    ∧ (-2147479016 : Int) ∈ (App.CreateTerrainGeometry 46341 1).indices
    ∧ ¬ (∀ i ∈ (App.CreateTerrainGeometry 46341 1).indices, 0 ≤ i) := by
  have hmem : (-2147479016 : Int) ∈ (App.CreateTerrainGeometry 46341 1).indices := by
    rw [mem_indices_iff]
    refine ⟨46340, by decide, 0, by decide, ?_⟩
    decide
  refine ⟨?_, hmem, ?_⟩
  · intro h
    have hlt := (indices_int32 46341 1 _ h).2
    norm_num at hlt
  · intro hall
    have h0 := hall _ hmem
    norm_num at h0

/-- C12, amended: for all `X ≥ 1` and `Z ≥ 1` for which `Z + X * (X + 1)` is an `int`
(at most `2^31 - 1`, so that no `int` expression of the index loop overflows), the largest
index that the index loop of `CreateTerrainGeometry` emits is `Z + X * (X + 1)`: it is
emitted, and every emitted index is at most that (and at least 0); so every emitted index
is below the number of control points exactly when `X ≤ Z`; all indices are in range for a
square grid `X = Z`, and some index is out of range whenever `X > Z`. -/
theorem createTerrainGeometry_largest_index (X Z : Nat) (hX : 1 ≤ X) (hZ : 1 ≤ Z)
    (hint : Z + X * (X + 1) < 2147483648) :
    (Z : Int) + (X : Int) * ((X : Int) + 1) ∈ (App.CreateTerrainGeometry X Z).indices
    ∧ (∀ i ∈ (App.CreateTerrainGeometry X Z).indices,
        i ≤ (Z : Int) + (X : Int) * ((X : Int) + 1))
    ∧ (∀ i ∈ (App.CreateTerrainGeometry X Z).indices, 0 ≤ i)
    ∧ ((∀ i ∈ (App.CreateTerrainGeometry X Z).indices,
          i < (((App.CreateTerrainGeometry X Z).pPositions.length : Nat) : Int)) ↔ X ≤ Z)
    ∧ (X = Z → ∀ i ∈ (App.CreateTerrainGeometry X Z).indices,
          0 ≤ i ∧ i < (((App.CreateTerrainGeometry X Z).pPositions.length : Nat) : Int))
    ∧ (Z < X → ∃ i ∈ (App.CreateTerrainGeometry X Z).indices,
          (((App.CreateTerrainGeometry X Z).pPositions.length : Nat) : Int) ≤ i) := by
  have hb : (Z : Int) + (X : Int) * ((X : Int) + 1) < 2147483648 := by exact_mod_cast hint
  have hlen : (((App.CreateTerrainGeometry X Z).pPositions.length : Nat) : Int)
      = ((X : Int) + 1) * ((Z : Int) + 1) := by
    rw [(createTerrainGeometry_sizes X Z).1]
    push_cast
    ring
  have hmem := largest_index_mem X Z hX hZ hb
  have hbound : ∀ i ∈ (App.CreateTerrainGeometry X Z).indices,
      0 ≤ i ∧ i ≤ (Z : Int) + (X : Int) * ((X : Int) + 1) := by
    intro i hi
    obtain ⟨x, hx, z, hz, hcell⟩ := (mem_indices_iff X Z i).mp hi
    exact cellIndices_bounds X Z x z hx hz hb i hcell
  have hiff := largest_index_lt_iff X Z hX
  rw [hlen]
  refine ⟨hmem, fun i hi => (hbound i hi).2, fun i hi => (hbound i hi).1, ⟨?_, ?_⟩, ?_, ?_⟩
  · intro hall
    exact hiff.mp (hall _ hmem)
  · intro hXZ i hi
    exact lt_of_le_of_lt (hbound i hi).2 (hiff.mpr hXZ)
  · intro hXZ i hi
    exact ⟨(hbound i hi).1, lt_of_le_of_lt (hbound i hi).2 (hiff.mpr (le_of_eq hXZ))⟩
  · intro hZX
    refine ⟨_, hmem, ?_⟩
    by_contra hlt
    exact absurd (hiff.mp (lt_of_not_le hlt)) (by omega)

/-- Witness of C12, on the 2 x 1 grid: the index 7 is emitted, every emitted index is at
most 7, and some emitted index is not below the number of control points. -/
theorem createTerrainGeometry_largest_index_witness :
    (7 : Int) ∈ (App.CreateTerrainGeometry 2 1).indices
    ∧ (∀ i ∈ (App.CreateTerrainGeometry 2 1).indices, i ≤ 7)
    ∧ (∃ i ∈ (App.CreateTerrainGeometry 2 1).indices,
        (((App.CreateTerrainGeometry 2 1).pPositions.length : Nat) : Int) ≤ i) := by
  obtain ⟨h1, h2, -, -, -, h6⟩ :=
    createTerrainGeometry_largest_index 2 1 (by decide) (by decide) (by decide)
  have e : ((1 : Nat) : Int) + ((2 : Nat) : Int) * (((2 : Nat) : Int) + 1) = 7 := by norm_num
  rw [e] at h1 h2
  exact ⟨h1, h2, h6 (by decide)⟩

/-! ## Theorems: `App::HandleEvent` -/

/-- C4: for every application state, `HandleEvent` on a key-up event whose key code is
`VK_ESCAPE` returns handled (`true`) and leaves termination requested; the
screenshot-pending flag is unchanged. -/
theorem handleEvent_keyUp_escape (app : App) :
    (app.HandleEvent ⟨eEVENT.SYSTEM_KEYBOARD_KEYUP, VK_ESCAPE⟩).1 = true
    ∧ (app.HandleEvent ⟨eEVENT.SYSTEM_KEYBOARD_KEYUP, VK_ESCAPE⟩).2.terminationRequested = true
    ∧ (app.HandleEvent ⟨eEVENT.SYSTEM_KEYBOARD_KEYUP, VK_ESCAPE⟩).2.m_bSaveScreenshot
        = app.m_bSaveScreenshot := by
  simp [App.HandleEvent, App.RequestTermination]

/-- C5: for every application state, `HandleEvent` on a key-up event whose key code is
'S' (0x53) returns handled (`true`) and leaves `m_bSaveScreenshot` set to `true`; whether
termination is requested is not changed by this event. -/
theorem handleEvent_keyUp_S (app : App) :
    (app.HandleEvent ⟨eEVENT.SYSTEM_KEYBOARD_KEYUP, 0x53⟩).1 = true
    ∧ (app.HandleEvent ⟨eEVENT.SYSTEM_KEYBOARD_KEYUP, 0x53⟩).2.m_bSaveScreenshot = true
    ∧ (app.HandleEvent ⟨eEVENT.SYSTEM_KEYBOARD_KEYUP, 0x53⟩).2.terminationRequested
        = app.terminationRequested := by
  simp [App.HandleEvent, VK_ESCAPE]

/-- C6, as stated, fails: on the key-down event with key code 0x41 ('A'), in the state of a
fresh application, `HandleEvent` does not return "not handled" (`false`). -/
theorem handleEvent_keyDown_not_unhandled :
    ¬ ((App.new.HandleEvent ⟨eEVENT.SYSTEM_KEYBOARD_KEYDOWN, 0x41⟩).1 = false) := by
  decide

/-- C6, amended: for every key-down event, whatever its key code, and every application
state, `HandleEvent` returns "handled" (`true`). -/
theorem handleEvent_keyDown_handled (app : App) (code : Nat) :
    (app.HandleEvent ⟨eEVENT.SYSTEM_KEYBOARD_KEYDOWN, code⟩).1 = true := by
  simp [App.HandleEvent]

/-- C7: for every key-up event whose key code is neither `VK_ESCAPE` nor 'S' (0x53), and
for every event whose type is neither key-up nor key-down (every char event among them),
`HandleEvent` returns "not handled" (`false`). -/
theorem handleEvent_unhandled (app : App) (e : IEvent)
    (h : (e.GetEventType = eEVENT.SYSTEM_KEYBOARD_KEYUP
            ∧ e.GetCharacterCode ≠ VK_ESCAPE ∧ e.GetCharacterCode ≠ 0x53)
          ∨ (e.GetEventType ≠ eEVENT.SYSTEM_KEYBOARD_KEYUP
            ∧ e.GetEventType ≠ eEVENT.SYSTEM_KEYBOARD_KEYDOWN)) :
    (app.HandleEvent e).1 = false := by
  rcases h with ⟨hup, hesc, hs⟩ | ⟨hup, hdown⟩
  · simp [App.HandleEvent, hup, hesc, hs]
  · simp [App.HandleEvent, hup, hdown]

/-- Witness of C7: the key-up of 'A' (0x41) and the char event of 'S' (0x53) are both
returned as "not handled". -/
theorem handleEvent_unhandled_witness :
    (App.new.HandleEvent ⟨eEVENT.SYSTEM_KEYBOARD_KEYUP, 0x41⟩).1 = false
    ∧ (App.new.HandleEvent ⟨eEVENT.SYSTEM_KEYBOARD_CHAR, 0x53⟩).1 = false :=
  ⟨handleEvent_unhandled App.new ⟨eEVENT.SYSTEM_KEYBOARD_KEYUP, 0x41⟩
      (Or.inl ⟨rfl, by decide, by decide⟩),
   handleEvent_unhandled App.new ⟨eEVENT.SYSTEM_KEYBOARD_CHAR, 0x53⟩
      (Or.inr ⟨by decide, by decide⟩)⟩

/-- C8: for every application state and every event that is not a key-up of `VK_ESCAPE`
and not a key-up of 'S' (0x53), `HandleEvent` leaves the screenshot-pending flag and the
termination-requested state as they were. -/
theorem handleEvent_frame (app : App) (e : IEvent)
    (hesc : ¬ (e.GetEventType = eEVENT.SYSTEM_KEYBOARD_KEYUP ∧ e.GetCharacterCode = VK_ESCAPE))
    (hs : ¬ (e.GetEventType = eEVENT.SYSTEM_KEYBOARD_KEYUP ∧ e.GetCharacterCode = 0x53)) :
    (app.HandleEvent e).2.m_bSaveScreenshot = app.m_bSaveScreenshot
    ∧ (app.HandleEvent e).2.terminationRequested = app.terminationRequested := by
  unfold App.HandleEvent
  by_cases hdown : e.GetEventType = eEVENT.SYSTEM_KEYBOARD_KEYDOWN
  · simp [hdown]
  · by_cases hup : e.GetEventType = eEVENT.SYSTEM_KEYBOARD_KEYUP
    · have h1 : e.GetCharacterCode ≠ VK_ESCAPE := fun hc => hesc ⟨hup, hc⟩
      have h2 : e.GetCharacterCode ≠ 0x53 := fun hc => hs ⟨hup, hc⟩
      simp [hup, h1, h2]
    · simp [hdown, hup]

/-- Witness of C8: a key-down of 'S' (0x53), in a state with a screenshot pending and no
termination requested, changes neither. -/
theorem handleEvent_frame_witness :
    ((⟨true, false⟩ : App).HandleEvent ⟨eEVENT.SYSTEM_KEYBOARD_KEYDOWN, 0x53⟩).2.m_bSaveScreenshot
        = true
    ∧ ((⟨true, false⟩ : App).HandleEvent
        ⟨eEVENT.SYSTEM_KEYBOARD_KEYDOWN, 0x53⟩).2.terminationRequested = false :=
  handleEvent_frame ⟨true, false⟩ ⟨eEVENT.SYSTEM_KEYBOARD_KEYDOWN, 0x53⟩
    (by decide) (by decide)

/-! ## Theorems: `App::Update` -/

/-- The frame-start event of `Update` does not change the application state. -/
theorem processEvent_frameStart (app : App) : app.ProcessEvent EvtFrameStart = app := by
  simp [App.ProcessEvent, App.listensTo, EvtFrameStart]

/-- The calls of one `Update`, by the screenshot-pending flag on entry. -/
theorem update_calls (app : App) :
    app.Update.2 = [Call.Timer_Update, Call.ProcessEvent EvtFrameStart, Call.ClearBuffers]
      ++ (if app.m_bSaveScreenshot then [Call.Present, Call.SaveTextureScreenShot]
          else [Call.RenderText, Call.Present]) := by
  unfold App.Update
  rw [processEvent_frameStart]
  obtain ⟨flag, term⟩ := app
  cases flag <;> simp

/-- The state after one `Update`: the flag is cleared, the rest is kept. -/
theorem update_state (app : App) :
    app.Update.1 = { app with m_bSaveScreenshot := false } := by
  unfold App.Update
  rw [processEvent_frameStart]
  obtain ⟨flag, term⟩ := app
  cases flag <;> simp

/-- With no screenshot pending, no run of `Update`s saves a screenshot. -/
theorem runUpdates_no_save (n : Nat) (app : App) (h : app.m_bSaveScreenshot = false) :
    (App.runUpdates n app).2.count Call.SaveTextureScreenShot = 0 := by
  induction n generalizing app with
  | zero => simp [App.runUpdates]
  | succ n ih =>
    have hnext : app.Update.1.m_bSaveScreenshot = false := by rw [update_state]
    simp only [App.runUpdates, List.count_append, ih _ hnext, update_calls, h]
    decide

/-- C9: for every state, `Update` ends with the screenshot-pending flag `false`; its calls
are the timer update, the frame-start event and the clear, followed by `Present` and then
`SaveTextureScreenShot` if the flag was set on entry, and by the text and `Present`
otherwise, so that it saves exactly one screenshot if the flag was set on entry and none
otherwise; hence after a key-up of 'S' (0x53) the next `Update` saves exactly one
screenshot, and `n` further `Update`s with no new event save none, for every `n`. -/
theorem update_consumes_screenshot_flag (app : App) (n : Nat) :
    app.Update.1.m_bSaveScreenshot = false
    ∧ app.Update.2 = [Call.Timer_Update, Call.ProcessEvent EvtFrameStart, Call.ClearBuffers]
        ++ (if app.m_bSaveScreenshot then [Call.Present, Call.SaveTextureScreenShot]
            else [Call.RenderText, Call.Present])
    ∧ app.Update.2.count Call.SaveTextureScreenShot = (if app.m_bSaveScreenshot then 1 else 0)
    ∧ (app.HandleEvent ⟨eEVENT.SYSTEM_KEYBOARD_KEYUP, 0x53⟩).2.Update.2.count
        Call.SaveTextureScreenShot = 1
    ∧ (App.runUpdates n (app.HandleEvent ⟨eEVENT.SYSTEM_KEYBOARD_KEYUP, 0x53⟩).2.Update.1).2.count
        Call.SaveTextureScreenShot = 0 := by
  have hS : (app.HandleEvent ⟨eEVENT.SYSTEM_KEYBOARD_KEYUP, 0x53⟩).2.m_bSaveScreenshot = true := by
    simp [App.HandleEvent, VK_ESCAPE]
  refine ⟨by rw [update_state], update_calls app, ?_, ?_, ?_⟩
  · rw [update_calls]
    cases app.m_bSaveScreenshot <;> decide
  · rw [update_calls, hS]
    decide
  · exact runUpdates_no_save n _ (by rw [update_state])

/-! ## Theorems: `App::ConfigureEngineComponents` -/

/-- C10: with `h` and `r` the outcomes of the hardware and the reference
`RendererDX11::Initialize` calls, `ConfigureEngineComponents` returns `false` if and only
if `h = false` and `r = false`; it calls `RequestTermination` in exactly that case (which
leaves termination requested), and it creates no swap chain in exactly that case; the
reference device is tried if and only if `h = false`; and a fixed time step is set if and
only if `h = false` and `r = true`, and then it is 1/10. -/
theorem configureEngineComponents_fallback (h r : Bool) (app : App) :
    ((app.ConfigureEngineComponents h r).returned = false ↔ (h = false ∧ r = false))
    ∧ (Call.RequestTermination ∈ (app.ConfigureEngineComponents h r).calls
        ↔ (h = false ∧ r = false))
    ∧ (app.ConfigureEngineComponents h r).app.terminationRequested
        = (app.terminationRequested || (!h && !r))
    ∧ ((∀ width height, Call.CreateSwapChain width height
          ∉ (app.ConfigureEngineComponents h r).calls) ↔ (h = false ∧ r = false))
    ∧ (Call.Renderer_Init D3D_DRIVER_TYPE.D3D_DRIVER_TYPE_REFERENCE
          ∈ (app.ConfigureEngineComponents h r).calls ↔ h = false)
    ∧ (∀ step, Call.Timer_SetFixedTimeStep step ∈ (app.ConfigureEngineComponents h r).calls
          ↔ (h = false ∧ r = true ∧ step = 1 / 10)) := by
  cases h <;> cases r <;>
    simp [App.ConfigureEngineComponents, App.configureTargets, App.RequestTermination]

end InterlockingTerrainTiles
